import Mathlib

/-!
Verification of the SiRiX -> MT5 trade copier (`tradeCopierMT5.py`).

Shallow embedding conventions:
* Python floats are modelled as `ℚ`; `None`-able numbers as `Option ℚ`.
* Python dicts keyed by order number are association lists
  `List (ℕ × _)`; `dict[k] = v` is `dictUpsert`, `del dict[k]` is
  `dictDelete`, `dict.get(k)` is `List.lookup`.
* The MT5 terminal and the SiRiX endpoint are oracles: structures of
  functions giving the responses the Python code would read back.
* `log(...)` calls have no observable effect and are dropped; the
  venue-facing actions the spec counts are collected in a `List Event`
  trace.
-/

/-- Python's `x or default` for a numeric `x`: `0` is falsy. -/
def pyOr (x d : ℚ) : ℚ := if x = 0 then d else x

/-- Python's banker's rounding of a rational to an integer
(`round` rounds half to even). -/
def pyRoundInt (q : ℚ) : ℤ :=
  let f := ⌊q⌋
  let frac := q - f
  if frac < 1/2 then f
  else if 1/2 < frac then f + 1
  else if Even f then f else f + 1

/-- Python's `round(q, d)` for `d ≥ 0` digits, on rationals. -/
def pyRound (q : ℚ) (d : ℤ) : ℚ :=
  pyRoundInt (q * 10 ^ d.toNat) / 10 ^ d.toNat

/-- One decoded SiRiX open position (dataclass `MasterPosition`). -/
structure MasterPosition where
  order_number : ℕ
  symbol : String
  side : ℤ
  amount : ℚ
  open_time : Option String := none
  open_rate : Option ℚ := none
  stop_loss : Option ℚ := none
  take_profit : Option ℚ := none
deriving DecidableEq

/-- Link between a master order and the follower MT5 position
(dataclass `FollowerLink`). -/
structure FollowerLink where
  master_order_number : ℕ
  master_symbol : String
  follower_symbol : String
  follower_ticket : ℤ
  follower_volume : ℚ
  side : ℤ
  sl : Option ℚ := none
  tp : Option ℚ := none
deriving DecidableEq

/-- The module-level configuration constants of `tradeCopierMT5.py`
that the copier core reads. -/
structure Config where
  volume_mode : String
  lot_rule_fixed_lots : ℚ
  lot_rule_multiplier : ℚ
  master_amount_mode : String
  symbol_units_per_lot : List (String × ℚ)
  follower_units_per_lot : List (String × ℚ)
  symbol_map : List (String × String)
  copy_stops : Bool
  close_on_master_close : Bool
  dry_run : Bool
  validate_stops : Bool
  sirix_buy_value : ℤ
  sirix_sell_value : ℤ
  stop_change_abs_tolerance : ℚ
deriving DecidableEq

/-- The configuration values as written in the source file. -/
def defaultConfig : Config where
  volume_mode := "fixed"
  lot_rule_fixed_lots := 1/10
  lot_rule_multiplier := 1
  master_amount_mode := "units"
  symbol_units_per_lot :=
    [("EURUSD", 100000), ("GBPUSD", 100000), ("XAUUSD", 100), ("NQ100.", 10)]
  follower_units_per_lot := []
  symbol_map := [("NQ100.", "NAS100.i"), ("GER40.", "GER40.i")]
  copy_stops := true
  close_on_master_close := true
  dry_run := false
  validate_stops := true
  sirix_buy_value := 0
  sirix_sell_value := 1
  stop_change_abs_tolerance := 1/1000000

/-- `sirix_is_buy`: raw side code means BUY. -/
def sirix_is_buy (cfg : Config) (side : ℤ) : Bool := side = cfg.sirix_buy_value

/-- `sirix_dir_01`: canonical direction, 1 = buy, 0 = sell. -/
def sirix_dir_01 (cfg : Config) (side : ℤ) : ℕ :=
  if sirix_is_buy cfg side then 1 else 0

/-- `get_units_per_lot`: per-symbol units table with FX default 100000. -/
def get_units_per_lot (cfg : Config) (symbol : String) : ℚ :=
  (cfg.symbol_units_per_lot.lookup symbol).getD 100000

/-- `calc_equity_ratio`: follower equity / master equity.  The follower
equity (read live from MT5, `None` in dry run or on exception) and the
master equity (global `last_sirix_equity`) are the two oracle inputs.
Mirrors the Python truthiness test
`if not follower_equity or not master_eq or master_eq <= 0: return 1.0`. -/
def calc_equity_ratio (follower_equity master_eq : Option ℚ) : ℚ :=
  match follower_equity, master_eq with
  | some f, some m =>
      if f = 0 then 1
      else if m = 0 then 1
      else if m ≤ 0 then 1
      else f / m
  | _, _ => 1

/-- `convert_master_amount_to_lots`: SiRiX position size -> MT5 lots.
`fe`/`me` are the equity oracle inputs threaded to `calc_equity_ratio`. -/
def convert_master_amount_to_lots (cfg : Config) (fe me : Option ℚ)
    (master_symbol : String) (master_amount : Option ℚ)
    (follower_symbol : Option String) : ℚ :=
  match master_amount with
  | none => 0
  | some amt =>
    let base_lots :=
      if cfg.master_amount_mode = "lots" then amt
      else if cfg.master_amount_mode = "units" then
        let units_per_lot :=
          match follower_symbol with
          | some fs =>
            match cfg.follower_units_per_lot.lookup fs with
            | some u => u
            | none => get_units_per_lot cfg master_symbol
          | none => get_units_per_lot cfg master_symbol
        amt / units_per_lot
      else amt
    let lots :=
      if cfg.volume_mode = "1to1" then base_lots
      else if cfg.volume_mode = "fixed" then cfg.lot_rule_fixed_lots
      else if cfg.volume_mode = "multiplier" then base_lots * cfg.lot_rule_multiplier
      else if cfg.volume_mode = "equity_ratio" then base_lots * calc_equity_ratio fe me
      else base_lots
    max lots 0

/-- What MT5 `symbol_info(symbol)` reports (the fields the copier reads).
`digits` and `filling_mode` keep their Python `getattr(_, _, None)`
optionality. -/
structure SymbolInfo where
  visible : Bool
  volume_step : ℚ
  volume_min : ℚ
  volume_max : ℚ
  point : ℚ
  stop_level : ℚ
  digits : Option ℤ
  filling_mode : Option ℕ
deriving DecidableEq

/-- `normalize_lot`: round lots down to the broker volume step, then
clamp into `[volume_min, volume_max]`; each broker field falls back to a
default when it is reported as 0 (Python `or`). -/
def normalize_lot (dry_run : Bool) (info : Option SymbolInfo) (lots : ℚ) : ℚ :=
  if dry_run then pyRound lots 2
  else
    match info with
    | none => pyRound lots 2
    | some i =>
      let step := pyOr i.volume_step (1/100)
      let min_vol := pyOr i.volume_min (1/100)
      let max_vol := pyOr i.volume_max 100
      let floored := (⌊lots / step⌋ : ℚ) * step
      max min_vol (min floored max_vol)

/-- The guard `if lots <= 0: return None` in `mt5_open_trade`
(tradeCopierMT5.py:530-533), taken after `normalize_lot`. -/
def mt5_open_trade_lot_guard_fails (dry_run : Bool) (info : Option SymbolInfo)
    (lots : ℚ) : Prop :=
  normalize_lot dry_run info lots ≤ 0

/-- A JSON field value as `pos.get(...)` sees it: absent-or-null, a
string, or a number. -/
inductive SVal where
  | null : SVal
  | str : String → SVal
  | num : ℚ → SVal
deriving DecidableEq

/-- Digit-list accumulator for `pyFloat`. -/
def parseDigitsAux : List Char → ℕ → Option ℕ
  | [], acc => some acc
  | c :: rest, acc =>
      if c.isDigit then parseDigitsAux rest (acc * 10 + (c.toNat - 48))
      else none

/-- The decimal shape of a parsed float literal: sign flag, integer
part, fraction digits value, fraction length.  An optional leading sign
is stripped, the integer part runs until a point, the rest (after the
point) is the fraction; a parse failure is `none` (non-digits anywhere,
a second point, or an empty string). -/
def pyFloatParts (s : String) : Option (Bool × ℕ × ℕ × ℕ) :=
  let cs := s.toList
  let neg := cs.head? == some '-'
  let cs1 := if cs.head? == some '-' || cs.head? == some '+' then cs.tail else cs
  let ip := cs1.takeWhile (fun c => c ≠ '.')
  let rest := cs1.drop ip.length
  if rest.isEmpty then
    if ip.isEmpty then none
    else (parseDigitsAux ip 0).map (fun n => (neg, n, 0, 0))
  else
    let fp := rest.tail
    if ip.isEmpty ∧ fp.isEmpty then none
    else
      match parseDigitsAux ip 0, parseDigitsAux fp 0 with
      | some i, some f => some (neg, i, f, fp.length)
      | _, _ => none

/-- Python's `float(s)` on a string, restricted to plain decimal
notation (optional sign, digits, optional single point); anything else
is a parse failure (the `except` arm of `extract_stops`). -/
def pyFloat (s : String) : Option ℚ :=
  (pyFloatParts s).map (fun p =>
    (if p.1 then -1 else 1) * ((p.2.1 : ℚ) + (p.2.2.1 : ℚ) / 10 ^ p.2.2.2))

/-- One leg of `extract_stops`:
`sl = float(sl) if sl not in (None, "", 0) else None`, with the
`try/except` turning an unparsable value into `None`.  Note Python's
`in` uses `==`, so the number `0` (or `0.0`) is caught but the string
`"0"` is not. -/
def extract_stop_value : SVal → Option ℚ
  | .null => none
  | .num q => if q = 0 then none else some q
  | .str s => if s = "" then none else pyFloat s

/-- `extract_stops`: the (StopLoss, TakeProfit) pair of a SiRiX item. -/
def extract_stops (sl tp : SVal) : Option ℚ × Option ℚ :=
  (extract_stop_value sl, extract_stop_value tp)

/-- The SL block of `validate_stops_for_mt5`: direction sanity
(BUY needs SL strictly below entry, SELL strictly above), then the
minimum-distance check when `min_dist` is truthy. -/
def sl_sanity (dir01 : ℕ) (min_dist entry : ℚ) : Option ℚ → Option ℚ
  | none => none
  | some s =>
      if dir01 = 1 ∧ entry ≤ s then none
      else if dir01 = 0 ∧ s ≤ entry then none
      else if min_dist ≠ 0 ∧ |entry - s| < min_dist then none
      else some s

/-- The TP block of `validate_stops_for_mt5`: direction sanity
(BUY needs TP strictly above entry, SELL strictly below), then the
minimum-distance check when `min_dist` is truthy. -/
def tp_sanity (dir01 : ℕ) (min_dist entry : ℚ) : Option ℚ → Option ℚ
  | none => none
  | some t =>
      if dir01 = 1 ∧ t ≤ entry then none
      else if dir01 = 0 ∧ entry ≤ t then none
      else if min_dist ≠ 0 ∧ |entry - t| < min_dist then none
      else some t

/-- `validate_stops_for_mt5`: drop stops violating direction sanity or
the broker minimum stop distance, then round survivors to the broker's
`digits`.  The unused Python `side` parameter is omitted (the body only
reads `dir01`); `point or 0.0` / `stop_level or 0` are identities on
numbers and are inlined. -/
def validate_stops_for_mt5 (validate_flag dry_run : Bool)
    (info : Option SymbolInfo) (dir01 : ℕ) (sl tp : Option ℚ)
    (entry_price : ℚ) : Option ℚ × Option ℚ :=
  if ¬ validate_flag then (sl, tp)
  else if dry_run then (sl, tp)
  else
    match info with
    | none => (sl, tp)
    | some i =>
      let min_dist := if i.point ≠ 0 then i.stop_level * i.point else 0
      let sl1 := sl_sanity dir01 min_dist entry_price sl
      let tp1 := tp_sanity dir01 min_dist entry_price tp
      match i.digits with
      | some d =>
          if 0 ≤ d then (sl1.map (pyRound · d), tp1.map (pyRound · d))
          else (sl1, tp1)
      | none => (sl1, tp1)

/-- `stops_changed`: absent/present flip is a change; two present
levels differ when farther apart than the absolute tolerance. -/
def stops_changed (tol : ℚ) (old new : Option ℚ) : Bool :=
  match old, new with
  | none, none => false
  | none, some _ => true
  | some _, none => true
  | some o, some n => tol < |o - n|

/-- `map_symbol`: configured translation table, passthrough when
unmapped (the warn-once bookkeeping only logs). -/
def map_symbol (cfg : Config) (sirix_symbol : String) : String :=
  (cfg.symbol_map.lookup sirix_symbol).getD sirix_symbol

/-- MT5 constant `ORDER_FILLING_FOK`. -/
def ORDER_FILLING_FOK : ℕ := 0
/-- MT5 constant `ORDER_FILLING_IOC`. -/
def ORDER_FILLING_IOC : ℕ := 1
/-- MT5 constant `ORDER_FILLING_RETURN`. -/
def ORDER_FILLING_RETURN : ℕ := 2
/-- MT5 constant `TRADE_RETCODE_PLACED`. -/
def TRADE_RETCODE_PLACED : ℕ := 10008
/-- MT5 constant `TRADE_RETCODE_DONE`. -/
def TRADE_RETCODE_DONE : ℕ := 10009
/-- MT5 constant `TRADE_RETCODE_DONE_PARTIAL`. -/
def TRADE_RETCODE_DONE_PARTIAL : ℕ := 10010

/-- `pick_filling_mode`: cached decision, else the broker-reported mode
when it is one of the three known modes, else FOK provisionally.  The
cache is the global `_symbol_filling_cache`; `reported` is
`getattr(symbol_info(symbol), "filling_mode", None)`. -/
def pick_filling_mode (cache : List (String × ℕ)) (reported : Option ℕ)
    (symbol : String) : ℕ × List (String × ℕ) :=
  match cache.lookup symbol with
  | some m => (m, cache)
  | none =>
    match reported with
    | some r =>
        if r = ORDER_FILLING_FOK ∨ r = ORDER_FILLING_IOC ∨ r = ORDER_FILLING_RETURN
        then (r, (symbol, r) :: cache)
        else (ORDER_FILLING_FOK, (symbol, ORDER_FILLING_FOK) :: cache)
    | none => (ORDER_FILLING_FOK, (symbol, ORDER_FILLING_FOK) :: cache)

/-- The retry loop of `_order_send_with_fallback`: try each candidate
mode in order; `10030` (unsupported filling) moves to the next mode; any
other retcode stops, caching the mode on a success retcode.  Returns
(attempts as (mode, retcode) pairs, updated cache, final retcode —
`none` only for an empty candidate list). -/
def send_loop (send : ℕ → ℕ) (symbol : String) :
    List ℕ → List (String × ℕ) → List (ℕ × ℕ) × List (String × ℕ) × Option ℕ
  | [], cache => ([], cache, none)
  | m :: rest, cache =>
    let rc := send m
    if rc = 10030 then
      let r := send_loop send symbol rest cache
      ((m, rc) :: r.1, r.2.1, some (r.2.2.getD rc))
    else
      let cache1 :=
        if rc = TRADE_RETCODE_DONE ∨ rc = TRADE_RETCODE_PLACED ∨
            rc = TRADE_RETCODE_DONE_PARTIAL
        then (symbol, m) :: cache else cache
      ([(m, rc)], cache1, some rc)

/-- `_order_send_with_fallback` (live path): start from
`pick_filling_mode`, append the remaining modes in FOK, IOC, RETURN
order, and run the retry loop.  `send` is the venue's response to an
order sent with a given filling mode. -/
def order_send_with_fallback (send : ℕ → ℕ) (reported : Option ℕ)
    (symbol : String) (cache : List (String × ℕ)) :
    List (ℕ × ℕ) × List (String × ℕ) × Option ℕ :=
  let picked := pick_filling_mode cache reported symbol
  let seq := picked.1 ::
    ([ORDER_FILLING_FOK, ORDER_FILLING_IOC, ORDER_FILLING_RETURN].filter
      (fun m => m ≠ picked.1))
  send_loop send symbol seq picked.2

/-- A raw entry of the SiRiX `OpenPositions[]` payload, fields as
`p.get(...)` returns them. -/
structure RawPos where
  OrderNumber : ℕ
  Symbol : String
  Side : Option ℤ
  Amount : Option ℚ
  StopLoss : SVal := .null
  TakeProfit : SVal := .null
  OpenTime : Option String := none
  OpenRate : Option ℚ := none
deriving DecidableEq

/-- A snapshot: the Python dict `order_number -> MasterPosition`. -/
abbrev Snap := List (ℕ × MasterPosition)

/-- The link table: the Python dict `order_number -> FollowerLink`. -/
abbrev Links := List (ℕ × FollowerLink)

/-- Python dict assignment `d[k] = v`: replace in place when the key
exists, else append (insertion order preserved). -/
def dictUpsert {α : Type} (l : List (ℕ × α)) (k : ℕ) (v : α) : List (ℕ × α) :=
  if (l.lookup k).isSome then
    l.map (fun p => if p.1 = k then (k, v) else p)
  else l ++ [(k, v)]

/-- Python dict deletion `del d[k]`. -/
def dictDelete {α : Type} (l : List (ℕ × α)) (k : ℕ) : List (ℕ × α) :=
  l.filter (fun p => p.1 ≠ k)

/-- `build_master_snapshot`: decode each `OpenPositions` item into a
`MasterPosition`, defaulting an unrecognized side code to BUY and an
absent amount to 0, keyed by order number. -/
def build_master_snapshot (cfg : Config) (ps : List RawPos) : Snap :=
  ps.foldl
    (fun snap p =>
      let side :=
        match p.Side with
        | some s =>
            if s = cfg.sirix_buy_value ∨ s = cfg.sirix_sell_value then s
            else cfg.sirix_buy_value
        | none => cfg.sirix_buy_value
      let stops := extract_stops p.StopLoss p.TakeProfit
      dictUpsert snap p.OrderNumber
        { order_number := p.OrderNumber
          symbol := p.Symbol
          side := side
          amount := p.Amount.getD 0
          open_time := p.OpenTime
          open_rate := p.OpenRate
          stop_loss := stops.1
          take_profit := stops.2 })
    []

/-- A fetched SiRiX payload: the open positions section and
`UserData.AccountBalance.Equity`. -/
structure Payload where
  openPositions : List RawPos
  equity : Option ℚ
deriving DecidableEq

/-- `update_master_equity`: overwrite `last_sirix_equity` when the
payload carries an equity, else keep the old value. -/
def update_master_equity (old : Option ℚ) (d : Payload) : Option ℚ :=
  match d.equity with
  | some e => some e
  | none => old

/-- The venue-facing actions of one reconciliation pass, recorded when
the engine hands a request to the corresponding `mt5_*` trade
operation. -/
inductive Event where
  | openCall (orderNo : ℕ) (lots : ℚ)
  | closeCall (orderNo : ℕ)
  | adjustCall (orderNo : ℕ) (newLots : ℚ)
  | stopUpdateCall (orderNo : ℕ)
deriving DecidableEq

/-- The master order number an event concerns. -/
def Event.orderNo : Event → ℕ
  | .openCall o _ => o
  | .closeCall o => o
  | .adjustCall o _ => o
  | .stopUpdateCall o => o

/-- Outcome oracle for the venue adapter (`mt5_*` trade operations):
`openTrade` gives `mt5_open_trade`'s returned ticket (or failure);
`closeTrade` gives `mt5_close_trade`'s success flag; `adjustVolume`
gives `mt5_adjust_volume`'s success flag together with the value the
call leaves in `link.follower_volume`; `updateStops` gives
`mt5_update_stops`' outcome — on success the (sl, tp) it records on the
link; `quote` is `mt5_current_prices`; `symbolInfo` is
`mt5.symbol_info`; `followerEquity` is `mt5.account_info().equity`. -/
structure Adapter where
  openTrade : MasterPosition → ℚ → Option ℚ → Option ℚ → Option ℤ
  closeTrade : FollowerLink → Bool
  adjustVolume : FollowerLink → ℚ → Bool × ℚ
  updateStops : FollowerLink → Option ℚ → Option ℚ → Option (Option ℚ × Option ℚ)
  quote : String → Option (ℚ × ℚ)
  symbolInfo : String → Option SymbolInfo
  followerEquity : Option ℚ

/-- `open_follower_for_master`: convert the size, call
`mt5_open_trade`, and record a `FollowerLink` (carrying the raw master
stops) on success; a failed open leaves the link table untouched. -/
def open_follower_for_master (cfg : Config) (A : Adapter) (me : Option ℚ)
    (links : Links) (mp : MasterPosition) : Links × List Event :=
  let mapped := map_symbol cfg mp.symbol
  let lots := convert_master_amount_to_lots cfg A.followerEquity me
    mp.symbol (some mp.amount) (some mapped)
  let ev := [Event.openCall mp.order_number lots]
  match A.openTrade mp lots mp.stop_loss mp.take_profit with
  | none => (links, ev)
  | some ticket =>
      (dictUpsert links mp.order_number
        { master_order_number := mp.order_number
          master_symbol := mp.symbol
          follower_symbol := mapped
          follower_ticket := ticket
          follower_volume := lots
          side := mp.side
          sl := mp.stop_loss
          tp := mp.take_profit }, ev)

/-- `close_follower_for_master`: skip when auto-close is off or no link
exists; drop a dry-run link directly; otherwise call `mt5_close_trade`
and delete the link only on success. -/
def close_follower_for_master (cfg : Config) (A : Adapter)
    (links : Links) (orderNo : ℕ) : Links × List Event :=
  if ¬ cfg.close_on_master_close then (links, [])
  else
    match links.lookup orderNo with
    | none => (links, [])
    | some link =>
      if cfg.dry_run ∧ link.follower_ticket = -1 then
        (dictDelete links orderNo, [])
      else if A.closeTrade link then
        (dictDelete links orderNo, [Event.closeCall orderNo])
      else (links, [Event.closeCall orderNo])

/-- `adjust_follower_for_master`: with no link, fall back to a fresh
open (the race noted in the source: "open failed earlier, try open
now"); with a link, call `mt5_adjust_volume` and drop the link when a
successful adjustment flattened the position. -/
def adjust_follower_for_master (cfg : Config) (A : Adapter) (me : Option ℚ)
    (links : Links) (mp : MasterPosition) : Links × List Event :=
  match links.lookup mp.order_number with
  | none => open_follower_for_master cfg A me links mp
  | some link =>
    let mapped := map_symbol cfg mp.symbol
    let new_lots := convert_master_amount_to_lots cfg A.followerEquity me
      mp.symbol (some mp.amount) (some mapped)
    if cfg.dry_run then
      (dictUpsert links mp.order_number { link with follower_volume := new_lots }, [])
    else
      let r := A.adjustVolume link new_lots
      if r.1 ∧ r.2 ≤ 0 then
        (dictDelete links mp.order_number, [Event.adjustCall mp.order_number new_lots])
      else
        (dictUpsert links mp.order_number { link with follower_volume := r.2 },
          [Event.adjustCall mp.order_number new_lots])

/-- `update_follower_stops_for_master`: with no link, only a warning;
otherwise revalidate the master stops against the live quote when
configured, then call `mt5_update_stops`. -/
def update_follower_stops_for_master (cfg : Config) (A : Adapter)
    (links : Links) (mp : MasterPosition) : Links × List Event :=
  match links.lookup mp.order_number with
  | none => (links, [])
  | some link =>
    let sl := if cfg.copy_stops then mp.stop_loss else none
    let tp := if cfg.copy_stops then mp.take_profit else none
    let validated :=
      if cfg.validate_stops then
        match A.quote link.follower_symbol with
        | some q =>
            let entry := if sirix_is_buy cfg link.side then q.2 else q.1
            validate_stops_for_mt5 cfg.validate_stops cfg.dry_run
              (A.symbolInfo link.follower_symbol)
              (sirix_dir_01 cfg link.side) sl tp entry
        | none => (sl, tp)
      else (sl, tp)
    match A.updateStops link validated.1 validated.2 with
    | none => (links, [Event.stopUpdateCall mp.order_number])
    | some applied =>
        (dictUpsert links mp.order_number
          { link with sl := applied.1, tp := applied.2 },
          [Event.stopUpdateCall mp.order_number])

/-- One iteration of the new/changed loop of `process_master_changes`:
a key absent from the previous snapshot opens a follower; a key present
in both checks the amount against the `1e-8` tolerance (adjust) and the
stops against `stops_changed` (stop sync). -/
def process_one_entry (cfg : Config) (A : Adapter) (me : Option ℚ)
    (prev : Snap) (links : Links) (e : ℕ × MasterPosition) : Links × List Event :=
  match prev.lookup e.1 with
  | none => open_follower_for_master cfg A me links e.2
  | some prevMp =>
    let r1 :=
      if 1/100000000 < |prevMp.amount - e.2.amount| then
        adjust_follower_for_master cfg A me links e.2
      else (links, [])
    let r2 :=
      if cfg.copy_stops &&
          (stops_changed cfg.stop_change_abs_tolerance prevMp.stop_loss e.2.stop_loss ||
           stops_changed cfg.stop_change_abs_tolerance prevMp.take_profit e.2.take_profit)
      then update_follower_stops_for_master cfg A r1.1 e.2
      else (r1.1, [])
    (r2.1, r1.2 ++ r2.2)

/-- The new/changed loop of `process_master_changes` over all entries of
the new snapshot, threading the link table. -/
def process_entries (cfg : Config) (A : Adapter) (me : Option ℚ)
    (prev : Snap) : Snap → Links → Links × List Event
  | [], links => (links, [])
  | e :: rest, links =>
    let r1 := process_one_entry cfg A me prev links e
    let r2 := process_entries cfg A me prev rest r1.1
    (r2.1, r1.2 ++ r2.2)

/-- The closed loop of `process_master_changes` over the keys that left
the snapshot. -/
def process_closes (cfg : Config) (A : Adapter) :
    List ℕ → Links → Links × List Event
  | [], links => (links, [])
  | k :: rest, links =>
    let r1 := close_follower_for_master cfg A links k
    let r2 := process_closes cfg A rest r1.1
    (r2.1, r1.2 ++ r2.2)

/-- The engine state: the previous snapshot, the link table and
`last_sirix_equity`. -/
structure EngState where
  snapshot : Snap
  links : Links
  lastEquity : Option ℚ
deriving DecidableEq

/-- `process_master_changes`: diff the new snapshot against the
previous one — opens/resizes/stop-syncs for present keys, closes for
vanished keys — then replace the stored snapshot unconditionally. -/
def process_master_changes (cfg : Config) (A : Adapter) (st : EngState)
    (new_snap : Snap) : EngState × List Event :=
  let r1 := process_entries cfg A st.lastEquity st.snapshot new_snap st.links
  let closed := (st.snapshot.map Prod.fst).filter
    (fun k => (new_snap.lookup k).isNone)
  let r2 := process_closes cfg A closed r1.1
  ({ snapshot := new_snap, links := r2.1, lastEquity := st.lastEquity },
    r1.2 ++ r2.2)

/-- One iteration of `poll_loop` after `fetch_userstatus_payload`
returned: `none` (fetch failure) only logs and sleeps; a payload updates
the master equity, builds the snapshot and reconciles. -/
def poll_tick (cfg : Config) (A : Adapter) (st : EngState)
    (data : Option Payload) : EngState × List Event :=
  match data with
  | none => (st, [])
  | some d =>
    let st1 : EngState :=
      { st with lastEquity := update_master_equity st.lastEquity d }
    process_master_changes cfg A st1 (build_master_snapshot cfg d.openPositions)

/-- The MT5 terminal oracle for the close path: symbol metadata,
select-symbol outcome, live tick, `positions_get(ticket=...)` (the live
volume, `none` when the position list comes back empty), and the final
retcode of the close order send. -/
structure MT5Env where
  symbolInfo : String → Option SymbolInfo
  selectOk : String → Bool
  tick : String → Option (ℚ × ℚ)
  positions : ℤ → Option ℚ
  closeSend : ℤ → ℕ

/-- `mt5_symbol_prepare`: visible symbols pass; otherwise try
`symbol_select`. -/
def mt5_symbol_prepare (env : MT5Env) (dry_run : Bool) (symbol : String) : Bool :=
  if dry_run then true
  else
    match env.symbolInfo symbol with
    | some i => if i.visible then true else env.selectOk symbol
    | none => env.selectOk symbol

/-- `mt5_close_trade`: close the follower position by an opposite deal.
An empty `positions_get` result logs "No MT5 position found … (already
closed?)" as a warning and returns `False`; a missing or non-positive
quote also fails; otherwise success is decided by the send retcode
(`DONE` or `DONE_PARTIAL`). -/
def mt5_close_trade (env : MT5Env) (dry_run : Bool) (link : FollowerLink) : Bool :=
  if ¬ mt5_symbol_prepare env dry_run link.follower_symbol then false
  else if dry_run then true
  else
    match env.positions link.follower_ticket with
    | none => false
    | some _vol =>
      match env.tick link.follower_symbol with
      | none => false
      | some q =>
        if q.1 ≤ 0 ∨ q.2 ≤ 0 then false
        else
          let rc := env.closeSend link.follower_ticket
          rc = TRADE_RETCODE_DONE ∨ rc = TRADE_RETCODE_DONE_PARTIAL

/-- The venue adapter induced by an MT5 terminal oracle on the close
path; the other operations are not exercised through it. -/
def adapterOfEnv (env : MT5Env) (dry_run : Bool) : Adapter where
  openTrade := fun _ _ _ _ => none
  closeTrade := mt5_close_trade env dry_run
  adjustVolume := fun l _ => (false, l.follower_volume)
  updateStops := fun _ _ _ => none
  quote := env.tick
  symbolInfo := env.symbolInfo
  followerEquity := none

/-- A venue adapter on which every call succeeds (opens get ticket 77,
adjustments land exactly on the requested lots, stop updates apply). -/
def adapterOK : Adapter where
  openTrade := fun _ _ _ _ => some 77
  closeTrade := fun _ => true
  adjustVolume := fun _ q => (true, q)
  updateStops := fun _ s t => some (s, t)
  quote := fun _ => some (1, 1)
  symbolInfo := fun _ => none
  followerEquity := none

/-- A master position used in concrete scenarios: order 1, EURUSD,
side Buy (raw code 0), amount 1.0, no stops. -/
def masterPos1 : MasterPosition :=
  { order_number := 1, symbol := "EURUSD", side := 0, amount := 1 }

/-- `masterPos1` resized to amount 2.0. -/
def masterPos1b : MasterPosition := { masterPos1 with amount := 2 }

/-- An MT5 terminal oracle whose position list is empty (every
`positions_get` finds nothing); quotes and sends succeed. -/
def env0 : MT5Env where
  symbolInfo := fun _ => none
  selectOk := fun _ => true
  tick := fun _ => some (1, 1)
  positions := fun _ => none
  closeSend := fun _ => 10009

/-- A follower link for master order 3 held against ticket 5. -/
def link0 : FollowerLink :=
  { master_order_number := 3, master_symbol := "EURUSD",
    follower_symbol := "EURUSD", follower_ticket := 5,
    follower_volume := 1/10, side := 0 }

/-- A concrete broker symbol record (4-digit FX-style contract). -/
def infoC : SymbolInfo :=
  { visible := true, volume_step := 1/100, volume_min := 1/100,
    volume_max := 100, point := 1/10000, stop_level := 10,
    digits := some 4, filling_mode := none }

/-- Is an event an open call? -/
def Event.isOpen : Event → Bool
  | .openCall _ _ => true
  | _ => false

/-- Is an event a close call? -/
def Event.isClose : Event → Bool
  | .closeCall _ => true
  | _ => false

/-- A negative follower equity is truthy in Python, so the fallback
test misses it and the quotient comes back negative. -/
theorem equity_fallback_misses_negative_cex :
    ((-5 : ℚ) ≤ 0) ∧
    calc_equity_ratio (some (-5)) (some 100) = -(1/20) ∧
    calc_equity_ratio (some (-5)) (some 100) ≠ 1 := by
  refine ⟨by norm_num, ?_, ?_⟩ <;> norm_num [calc_equity_ratio]

/-- C7 (amended): the ratio falls back to 1.0 when either equity is
absent, when the follower equity is zero, or when the master equity is
non-positive; a known nonzero follower equity over a positive master
equity always yields the quotient (so a negative follower equity gives
a negative ratio, not 1.0); in EquityRatio mode follower lots are base
lots times the ratio, floored at zero. -/
theorem equity_fallback_characterization :
    (∀ me, calc_equity_ratio none me = 1) ∧
    (∀ fe, calc_equity_ratio fe none = 1) ∧
    (∀ me, calc_equity_ratio (some 0) me = 1) ∧
    (∀ f m : ℚ, m ≤ 0 → calc_equity_ratio (some f) (some m) = 1) ∧
    (∀ f m : ℚ, f ≠ 0 → 0 < m → calc_equity_ratio (some f) (some m) = f / m) ∧
    (∀ (cfg : Config) (fe me : Option ℚ) (ms : String) (amt : ℚ)
        (fs : Option String),
      cfg.volume_mode = "equity_ratio" → cfg.master_amount_mode = "lots" →
      convert_master_amount_to_lots cfg fe me ms (some amt) fs
        = max (amt * calc_equity_ratio fe me) 0) := by
  refine ⟨?_, ?_, ?_, ?_, ?_, ?_⟩
  · intro me; cases me <;> rfl
  · intro fe; cases fe <;> rfl
  · intro me; cases me <;> rfl
  · intro f m hm
    simp only [calc_equity_ratio]
    split_ifs <;> rfl
  · intro f m hf hm
    simp only [calc_equity_ratio]
    split_ifs with h1 h2 h3
    · exact absurd h1 hf
    · exact absurd h2 (by positivity)
    · exact absurd h3 (not_le.mpr hm)
    · rfl
  · intro cfg fe me ms amt fs h1 h2
    simp [convert_master_amount_to_lots, h1, h2]

/-- Witness for C7's amended theorem at concrete equities. -/
theorem equity_fallback_characterization_witness :
    calc_equity_ratio (some 200) (some 100) = 2 := by
  have h := equity_fallback_characterization.2.2.2.2.1 200 100 (by norm_num) (by norm_num)
  rw [h]; norm_num

/-- C9: with live symbol info, `normalize_lot` clamps every requested
lot size up to at least the venue minimum volume, a sub-minimum request
trades at exactly the minimum, and `mt5_open_trade`'s non-positive-lot
failure branch cannot fire when the minimum volume is positive. -/
theorem normalize_lot_clamps_to_min (i : SymbolInfo) (lots : ℚ)
    (hmin : 0 < i.volume_min) (hstep : 0 ≤ i.volume_step) (hpos : 0 < lots) :
    i.volume_min ≤ normalize_lot false (some i) lots ∧
    ¬ mt5_open_trade_lot_guard_fails false (some i) lots ∧
    (lots ≤ i.volume_min → normalize_lot false (some i) lots = i.volume_min) := by
  have hminq : pyOr i.volume_min (1/100) = i.volume_min := by
    simp [pyOr, hmin.ne']
  have hval : normalize_lot false (some i) lots
      = max (pyOr i.volume_min (1/100))
          (min ((⌊lots / pyOr i.volume_step (1/100)⌋ : ℚ) * pyOr i.volume_step (1/100))
            (pyOr i.volume_max 100)) := rfl
  have hstep' : 0 < pyOr i.volume_step (1/100) := by
    by_cases h : i.volume_step = 0
    · simp [pyOr, h]
    · simpa [pyOr, h] using lt_of_le_of_ne hstep (Ne.symm h)
  have hle : i.volume_min ≤ normalize_lot false (some i) lots := by
    rw [hval, hminq]; exact le_max_left _ _
  refine ⟨hle, ?_, ?_⟩
  · intro hguard
    exact absurd (lt_of_lt_of_le hmin (le_trans hle hguard)) (lt_irrefl 0)
  · intro hsmall
    rw [hval, hminq]
    have hfl : (⌊lots / pyOr i.volume_step (1/100)⌋ : ℚ) * pyOr i.volume_step (1/100) ≤ lots := by
      have h1 : (⌊lots / pyOr i.volume_step (1/100)⌋ : ℚ) ≤ lots / pyOr i.volume_step (1/100) :=
        Int.floor_le _
      calc (⌊lots / pyOr i.volume_step (1/100)⌋ : ℚ) * pyOr i.volume_step (1/100)
          ≤ (lots / pyOr i.volume_step (1/100)) * pyOr i.volume_step (1/100) :=
            mul_le_mul_of_nonneg_right h1 hstep'.le
        _ = lots := div_mul_cancel₀ _ hstep'.ne'
    exact max_eq_left (le_trans (min_le_left _ _) (le_trans hfl hsmall))

/-- Witness for C9 on a concrete broker record and request. -/
theorem normalize_lot_clamps_to_min_witness :
    (1/100 : ℚ) ≤ normalize_lot false (some infoC) (1/1000) ∧
    ¬ mt5_open_trade_lot_guard_fails false (some infoC) (1/1000) ∧
    ((1/1000 : ℚ) ≤ 1/100 → normalize_lot false (some infoC) (1/1000) = 1/100) :=
  normalize_lot_clamps_to_min infoC (1/1000) (by norm_num [infoC]) (by norm_num [infoC])
    (by norm_num)

/-- The numeric string "0" passes the `not in (None, "", 0)` membership
test (Python `==` does not equate `"0"` with `0`), parses to 0.0, and
is recorded as a present stop at price level 0 in the snapshot. -/
theorem zero_string_stop_recorded_cex :
    extract_stop_value (SVal.str "0") = some 0 ∧
    build_master_snapshot defaultConfig
        [{ OrderNumber := 7, Symbol := "XAUUSD", Side := some 0,
           Amount := some 1, StopLoss := SVal.str "0", TakeProfit := SVal.null }]
      = [(7, { order_number := 7, symbol := "XAUUSD", side := 0, amount := 1,
               stop_loss := some 0, take_profit := none })] := by
  have hp : pyFloatParts "0" = some (false, 0, 0, 0) := by decide
  have hx : extract_stop_value (SVal.str "0") = some 0 := by
    simp [extract_stop_value, pyFloat, hp]
  refine ⟨hx, ?_⟩
  simp [build_master_snapshot, dictUpsert, extract_stops, defaultConfig,
    extract_stop_value, pyFloat, hp]

/-- C10 (amended): a StopLoss/TakeProfit field that is missing (or
null), the empty string, the number 0, or an unparsable string is
recorded as absent, and any other number is recorded as present; but a
stop level transmitted as the numeric string "0" parses to 0.0 and is
recorded as present, so a level-0 stop encoded as a string is copied.
Snapshot entries carry exactly the extracted stop values. -/
theorem stop_sentinel_extraction :
    extract_stop_value SVal.null = none ∧
    extract_stop_value (SVal.str "") = none ∧
    extract_stop_value (SVal.num 0) = none ∧
    (∀ q : ℚ, q ≠ 0 → extract_stop_value (SVal.num q) = some q) ∧
    (∀ s : String, s ≠ "" → pyFloat s = none →
      extract_stop_value (SVal.str s) = none) ∧
    extract_stop_value (SVal.str "0") = some 0 ∧
    (∀ (cfg : Config) (p : RawPos),
      ((build_master_snapshot cfg [p]).lookup p.OrderNumber).map
          MasterPosition.stop_loss = some (extract_stop_value p.StopLoss) ∧
      ((build_master_snapshot cfg [p]).lookup p.OrderNumber).map
          MasterPosition.take_profit = some (extract_stop_value p.TakeProfit)) := by
  have hp : pyFloatParts "0" = some (false, 0, 0, 0) := by decide
  refine ⟨rfl, rfl, by simp [extract_stop_value], ?_, ?_,
    by simp [extract_stop_value, pyFloat, hp], ?_⟩
  · intro q hq
    simp [extract_stop_value, hq]
  · intro s hs hq
    simp [extract_stop_value, hs, hq]
  · intro cfg p
    constructor <;>
      simp [build_master_snapshot, dictUpsert, List.lookup, extract_stops]

/-- Witness for C10's amended theorem at concrete field values. -/
theorem stop_sentinel_extraction_witness :
    extract_stop_value (SVal.num 5) = some 5 ∧
    extract_stop_value (SVal.str "abc") = none :=
  ⟨stop_sentinel_extraction.2.2.2.1 5 (by norm_num),
   stop_sentinel_extraction.2.2.2.2.1 "abc" (by decide) (by decide)⟩

/-- C8: `process_master_changes` stores the new snapshot
unconditionally, for every adapter outcome (hence regardless of
per-position failures), and a tick whose fetch comes back `None` does
not reconcile: state, previous snapshot and link table are unchanged
and no venue call is made. -/
theorem snapshot_advancement_unconditional :
    (∀ (cfg : Config) (A : Adapter) (st : EngState) (new_snap : Snap),
      (process_master_changes cfg A st new_snap).1.snapshot = new_snap) ∧
    (∀ (cfg : Config) (A : Adapter) (st : EngState),
      poll_tick cfg A st none = (st, [])) :=
  ⟨fun _ _ _ _ => rfl, fun _ _ _ => rfl⟩

/-- With an empty venue position list, `mt5_close_trade` returns
failure and `close_follower_for_master` keeps the link: the link table
still holds the entry, contradicting removal. -/
theorem close_not_found_link_kept_cex :
    env0.positions link0.follower_ticket = none ∧
    mt5_close_trade env0 false link0 = false ∧
    (close_follower_for_master defaultConfig (adapterOfEnv env0 false)
        [(3, link0)] 3).1.lookup 3 = some link0 := by
  exact ⟨rfl, rfl, rfl⟩

/-- C2 (amended): when the venue reports the follower position as not
found on close, `mt5_close_trade` logs the "already closed?" warning
but returns failure, and `close_follower_for_master` therefore does NOT
remove the FollowerLink — the link table is left unchanged (the close
call was attempted). -/
theorem close_not_found_returns_failure_keeps_link (env : MT5Env)
    (cfg : Config) (links : Links) (o : ℕ) (link : FollowerLink)
    (hc : cfg.close_on_master_close = true) (hd : cfg.dry_run = false)
    (hlink : links.lookup o = some link)
    (hpos : env.positions link.follower_ticket = none) :
    mt5_close_trade env false link = false ∧
    close_follower_for_master cfg (adapterOfEnv env false) links o
      = (links, [Event.closeCall o]) := by
  have h1 : mt5_close_trade env false link = false := by
    rcases h : mt5_symbol_prepare env false link.follower_symbol <;>
      simp [mt5_close_trade, h, hpos]
  refine ⟨h1, ?_⟩
  simp [close_follower_for_master, hc, hd, hlink, adapterOfEnv, h1]

/-- Witness for C2's amended theorem on the concrete empty-terminal
oracle. -/
theorem close_not_found_returns_failure_keeps_link_witness :
    mt5_close_trade env0 false link0 = false ∧
    close_follower_for_master defaultConfig (adapterOfEnv env0 false)
        [(3, link0)] 3
      = ([(3, link0)], [Event.closeCall 3]) :=
  close_not_found_returns_failure_keeps_link env0 defaultConfig
    [(3, link0)] 3 link0 rfl rfl rfl rfl

/-- When the venue rejects every mode with 10030, the retry loop tries
every candidate, caches nothing, and ends on retcode 10030. -/
theorem send_loop_all_reject (send : ℕ → ℕ) (sym : String)
    (hall : ∀ m, send m = 10030) :
    ∀ (seq : List ℕ) (cache : List (String × ℕ)),
      send_loop send sym seq cache
        = (seq.map (fun m => (m, 10030)), cache,
            if seq.isEmpty then none else some (10030 : ℕ)) := by
  intro seq
  induction seq with
  | nil => intro cache; simp [send_loop]
  | cons m rest ih =>
    intro cache
    simp [send_loop, hall, ih cache]
    cases rest <;> simp

/-- C3: fill-mode negotiation.  (i) With a cached mode the first (and on
acceptance only) attempt uses it; (ii) on a cache miss a broker-reported
known mode is tried first; (iii) a venue rejecting FOK (10030) but
accepting IOC (10009) yields exactly the attempt list
[(FOK, rejected), (IOC, done)] on the first order, caches IOC, and a
subsequent order for the symbol makes the single accepted attempt
[(IOC, done)] — zero rejections; (iv) if every mode is rejected, the
final retcode is 10030 (the order fails) and every attempt was a
rejection. -/
theorem fill_mode_negotiation_spec (sym : String) (cache : List (String × ℕ))
    (hmiss : cache.lookup sym = none) :
    (∀ (send : ℕ → ℕ) (c : List (String × ℕ)) (m : ℕ) (rep : Option ℕ),
      c.lookup sym = some m →
      (order_send_with_fallback send rep sym c).1.head? = some (m, send m)) ∧
    (∀ (send : ℕ → ℕ) (r : ℕ), r = 0 ∨ r = 1 ∨ r = 2 →
      (order_send_with_fallback send (some r) sym cache).1.head? = some (r, send r)) ∧
    (∀ send : ℕ → ℕ, send 0 = 10030 → send 1 = 10009 →
      (order_send_with_fallback send none sym cache).1 = [(0, 10030), (1, 10009)] ∧
      (order_send_with_fallback send none sym cache).2.2 = some 10009 ∧
      ((order_send_with_fallback send none sym cache).2.1).lookup sym = some 1 ∧
      (∀ rep, (order_send_with_fallback send rep sym
          ((order_send_with_fallback send none sym cache).2.1)).1 = [(1, 10009)])) ∧
    (∀ (send : ℕ → ℕ) (rep : Option ℕ), (∀ m, send m = 10030) →
      (order_send_with_fallback send rep sym cache).2.2 = some 10030 ∧
      ∀ a ∈ (order_send_with_fallback send rep sym cache).1, a.2 = 10030) := by
  refine ⟨?_, ?_, ?_, ?_⟩
  · intro send c m rep hc
    simp only [order_send_with_fallback, pick_filling_mode, hc]
    by_cases hr : send m = 10030 <;> simp [send_loop, hr]
  · intro send r hr
    have hrm : (r = ORDER_FILLING_FOK ∨ r = ORDER_FILLING_IOC ∨
        r = ORDER_FILLING_RETURN) := by
      simpa [ORDER_FILLING_FOK, ORDER_FILLING_IOC, ORDER_FILLING_RETURN] using hr
    simp only [order_send_with_fallback, pick_filling_mode, hmiss, if_pos hrm]
    by_cases hs : send r = 10030 <;> simp [send_loop, hs]
  · intro send h0 h1
    have hfull : order_send_with_fallback send none sym cache
        = ([(0, 10030), (1, 10009)], (sym, 1) :: (sym, 0) :: cache, some 10009) := by
      simp [order_send_with_fallback, pick_filling_mode, hmiss,
        ORDER_FILLING_FOK, ORDER_FILLING_IOC, ORDER_FILLING_RETURN,
        TRADE_RETCODE_DONE, TRADE_RETCODE_PLACED, TRADE_RETCODE_DONE_PARTIAL,
        send_loop, h0, h1]
    refine ⟨by rw [hfull], by rw [hfull], by rw [hfull]; simp [List.lookup], ?_⟩
    intro rep
    rw [hfull]
    simp [order_send_with_fallback, pick_filling_mode, List.lookup,
      ORDER_FILLING_FOK, ORDER_FILLING_IOC, ORDER_FILLING_RETURN,
      send_loop, h1]
  · intro send rep hall
    have hs := send_loop_all_reject send sym hall
    constructor
    · simp only [order_send_with_fallback]
      rw [hs]
      simp
    · intro a ha
      simp only [order_send_with_fallback] at ha
      rw [hs] at ha
      obtain ⟨m, _, hm⟩ := List.mem_map.mp ha
      rw [← hm]

/-- Witness for C3 on a venue that rejects FOK and accepts IOC. -/
theorem fill_mode_negotiation_spec_witness :
    (order_send_with_fallback (fun m => if m = 1 then 10009 else 10030)
        none "EURUSD" []).1 = [(0, 10030), (1, 10009)] ∧
    (order_send_with_fallback (fun m => if m = 1 then 10009 else 10030)
        none "EURUSD" []).2.2 = some 10009 ∧
    ((order_send_with_fallback (fun m => if m = 1 then 10009 else 10030)
        none "EURUSD" []).2.1).lookup "EURUSD" = some 1 ∧
    (∀ rep, (order_send_with_fallback (fun m => if m = 1 then 10009 else 10030)
        rep "EURUSD"
        ((order_send_with_fallback (fun m => if m = 1 then 10009 else 10030)
          none "EURUSD" []).2.1)).1 = [(1, 10009)]) :=
  (fill_mode_negotiation_spec "EURUSD" [] rfl).2.2.1
    (fun m => if m = 1 then 10009 else 10030) rfl rfl

/-- The SL/TP sanity checks either drop a level or keep it verbatim;
`sl_sanity` never alters a kept value. -/
theorem sl_sanity_shape (dir01 : ℕ) (md entry : ℚ) (sl : Option ℚ) :
    sl_sanity dir01 md entry sl = none ∨
    ∃ s, sl = some s ∧ sl_sanity dir01 md entry sl = some s := by
  cases sl with
  | none => exact Or.inl rfl
  | some s =>
    simp only [sl_sanity]
    split_ifs <;> first | exact Or.inl rfl | exact Or.inr ⟨s, rfl, rfl⟩

/-- `tp_sanity` never alters a kept value. -/
theorem tp_sanity_shape (dir01 : ℕ) (md entry : ℚ) (tp : Option ℚ) :
    tp_sanity dir01 md entry tp = none ∨
    ∃ t, tp = some t ∧ tp_sanity dir01 md entry tp = some t := by
  cases tp with
  | none => exact Or.inl rfl
  | some t =>
    simp only [tp_sanity]
    split_ifs <;> first | exact Or.inl rfl | exact Or.inr ⟨t, rfl, rfl⟩

/-- C6: with validation on, live mode, and symbol info carrying a
non-negative digit count: a long SL at or above entry (short: at or
below) is dropped; a long TP at or below entry (short: at or above) is
dropped; with a positive minimum stop distance (stop-level points times
point size), any level strictly closer to entry than that distance is
dropped; and each surviving level is exactly the requested one rounded
to the venue's digits — never a clamped value. -/
theorem stop_validator_drops_and_rounds (i : SymbolInfo) (dir01 : ℕ)
    (sl tp : Option ℚ) (entry : ℚ) (dz : ℤ)
    (hdig : i.digits = some dz) (hd : 0 ≤ dz) :
    (∀ s, sl = some s → dir01 = 1 → entry ≤ s →
      (validate_stops_for_mt5 true false (some i) dir01 sl tp entry).1 = none) ∧
    (∀ s, sl = some s → dir01 = 0 → s ≤ entry →
      (validate_stops_for_mt5 true false (some i) dir01 sl tp entry).1 = none) ∧
    (∀ t, tp = some t → dir01 = 1 → t ≤ entry →
      (validate_stops_for_mt5 true false (some i) dir01 sl tp entry).2 = none) ∧
    (∀ t, tp = some t → dir01 = 0 → entry ≤ t →
      (validate_stops_for_mt5 true false (some i) dir01 sl tp entry).2 = none) ∧
    (∀ s, sl = some s → 0 < i.stop_level * i.point →
      |entry - s| < i.stop_level * i.point →
      (validate_stops_for_mt5 true false (some i) dir01 sl tp entry).1 = none) ∧
    (∀ t, tp = some t → 0 < i.stop_level * i.point →
      |entry - t| < i.stop_level * i.point →
      (validate_stops_for_mt5 true false (some i) dir01 sl tp entry).2 = none) ∧
    ((validate_stops_for_mt5 true false (some i) dir01 sl tp entry).1 = none ∨
      ∃ s, sl = some s ∧
        (validate_stops_for_mt5 true false (some i) dir01 sl tp entry).1
          = some (pyRound s dz)) ∧
    ((validate_stops_for_mt5 true false (some i) dir01 sl tp entry).2 = none ∨
      ∃ t, tp = some t ∧
        (validate_stops_for_mt5 true false (some i) dir01 sl tp entry).2
          = some (pyRound t dz)) := by
  have hmd : validate_stops_for_mt5 true false (some i) dir01 sl tp entry
      = ((sl_sanity dir01 (if i.point ≠ 0 then i.stop_level * i.point else 0)
            entry sl).map (pyRound · dz),
         (tp_sanity dir01 (if i.point ≠ 0 then i.stop_level * i.point else 0)
            entry tp).map (pyRound · dz)) := by
    simp only [validate_stops_for_mt5, hdig]
    simp [hd]
  set md := (if i.point ≠ 0 then i.stop_level * i.point else 0) with hmdval
  have hmdpos : 0 < i.stop_level * i.point → md = i.stop_level * i.point := by
    intro hp
    have hz : i.point ≠ 0 := by
      intro h0
      rw [h0, mul_zero] at hp
      exact lt_irrefl 0 hp
    simp [hmdval, hz]
  refine ⟨?_, ?_, ?_, ?_, ?_, ?_, ?_, ?_⟩
  · intro s hsl h1 h2
    rw [hmd]
    subst hsl
    simp [sl_sanity, h1, h2]
  · intro s hsl h1 h2
    rw [hmd]
    subst hsl
    simp only [sl_sanity]
    split_ifs with c1 c2 c3
    · rfl
    · rfl
    · rfl
    · exact absurd ⟨h1, h2⟩ c2
  · intro t htp h1 h2
    rw [hmd]
    subst htp
    simp [tp_sanity, h1, h2]
  · intro t htp h1 h2
    rw [hmd]
    subst htp
    simp only [tp_sanity]
    split_ifs with c1 c2 c3
    · rfl
    · rfl
    · rfl
    · exact absurd ⟨h1, h2⟩ c2
  · intro s hsl hp hclose
    rw [hmd]
    subst hsl
    have hmde := hmdpos hp
    simp only [sl_sanity]
    split_ifs with c1 c2 c3
    · rfl
    · rfl
    · rfl
    · refine absurd ⟨?_, ?_⟩ c3
      · rw [hmde]; exact hp.ne'
      · rw [hmde]; exact hclose
  · intro t htp hp hclose
    rw [hmd]
    subst htp
    have hmde := hmdpos hp
    simp only [tp_sanity]
    split_ifs with c1 c2 c3
    · rfl
    · rfl
    · rfl
    · refine absurd ⟨?_, ?_⟩ c3
      · rw [hmde]; exact hp.ne'
      · rw [hmde]; exact hclose
  · rw [hmd]
    rcases sl_sanity_shape dir01 md entry sl with h | ⟨s, hs, h⟩
    · exact Or.inl (by simp [h])
    · exact Or.inr ⟨s, hs, by simp [h]⟩
  · rw [hmd]
    rcases tp_sanity_shape dir01 md entry tp with h | ⟨t, ht, h⟩
    · exact Or.inl (by simp [h])
    · exact Or.inr ⟨t, ht, by simp [h]⟩

/-- Witness for C6: buy at entry 1.0 with SL 1.1 (not below entry) is
dropped on the concrete symbol record. -/
theorem stop_validator_drops_and_rounds_witness :
    (validate_stops_for_mt5 true false (some infoC) 1 (some (11/10)) none 1).1
      = none :=
  (stop_validator_drops_and_rounds infoC 1 (some (11/10)) none 1 4 rfl
      (by norm_num)).1 (11/10) rfl rfl (by norm_num)

/-- A key appearing in an association list has a successful lookup. -/
theorem lookup_isSome_of_mem_keys {α : Type} (l : List (ℕ × α)) (k : ℕ)
    (h : k ∈ l.map Prod.fst) : (l.lookup k).isSome = true := by
  induction l with
  | nil => simp at h
  | cons hd tl ih =>
    by_cases hk : k = hd.1
    · simp [List.lookup, hk]
    · have hmem : k ∈ tl.map Prod.fst := by
        rcases List.mem_map.mp h with ⟨e, he, hke⟩
        rcases List.mem_cons.mp he with h1 | h1
        · exact absurd (by rw [← hke, h1]) hk
        · exact List.mem_map.mpr ⟨e, h1, hke⟩
      simp only [List.lookup]
      rw [beq_eq_false_iff_ne.mpr hk]
      exact ih hmem

/-- With pairwise-distinct keys, membership determines the lookup. -/
theorem lookup_eq_of_nodup_mem {α : Type} {l : List (ℕ × α)} {k : ℕ} {v : α}
    (hnd : (l.map Prod.fst).Nodup) (hm : (k, v) ∈ l) : l.lookup k = some v := by
  induction l with
  | nil => simp at hm
  | cons hd tl ih =>
    rcases List.mem_cons.mp hm with h1 | h1
    · rw [← h1]
      simp [List.lookup]
    · have hk : k ≠ hd.1 := by
        intro hk
        have hmem : hd.1 ∈ tl.map Prod.fst :=
          List.mem_map.mpr ⟨(k, v), h1, by rw [hk]⟩
        exact (List.nodup_cons.mp (by simpa using hnd)).1 hmem
      simp only [List.lookup]
      rw [beq_eq_false_iff_ne.mpr hk]
      exact ih (List.nodup_cons.mp (by simpa using hnd)).2 h1

/-- Equal stored stop levels never count as changed (non-negative
tolerance). -/
theorem stops_changed_self (tol : ℚ) (htol : 0 ≤ tol) (x : Option ℚ) :
    stops_changed tol x x = false := by
  cases x with
  | none => rfl
  | some v => simp [stops_changed, not_lt.mpr htol]

/-- Entries whose previous-snapshot lookup returns an identical amount
and identical stops produce no events and leave the link table alone. -/
theorem process_entries_no_change (cfg : Config) (A : Adapter) (me : Option ℚ)
    (prev : Snap) (htol : 0 ≤ cfg.stop_change_abs_tolerance) :
    ∀ (l : Snap) (links : Links),
      (∀ e ∈ l, ∃ mp, prev.lookup e.1 = some mp ∧ mp.amount = e.2.amount ∧
        mp.stop_loss = e.2.stop_loss ∧ mp.take_profit = e.2.take_profit) →
      process_entries cfg A me prev l links = (links, []) := by
  intro l
  induction l with
  | nil => intro links _; rfl
  | cons e rest ih =>
    intro links hall
    obtain ⟨mp, hlk, ha, hs, ht⟩ := hall e (List.mem_cons_self e rest)
    have hone : process_one_entry cfg A me prev links e = (links, []) := by
      have hsc1 := stops_changed_self cfg.stop_change_abs_tolerance htol e.2.stop_loss
      have hsc2 := stops_changed_self cfg.stop_change_abs_tolerance htol e.2.take_profit
      simp only [process_one_entry, hlk, ha, hs, ht, sub_self, abs_zero, hsc1, hsc2,
        Bool.or_self, Bool.and_false]
      norm_num
    have hrest := ih links (fun e' he' => hall e' (List.mem_cons_of_mem e he'))
    simp [process_entries, hone, hrest]

/-- C5: feeding a snapshot whose entries all match the previous one
(same order numbers, same amounts, same stop levels, and no order
vanished) issues zero venue calls and leaves the link table unchanged. -/
theorem idempotent_rediff (cfg : Config) (A : Adapter) (st : EngState)
    (new_snap : Snap) (htol : 0 ≤ cfg.stop_change_abs_tolerance)
    (hsame : ∀ e ∈ new_snap, ∃ mp, st.snapshot.lookup e.1 = some mp ∧
      mp.amount = e.2.amount ∧ mp.stop_loss = e.2.stop_loss ∧
      mp.take_profit = e.2.take_profit)
    (hkeys : ∀ k ∈ st.snapshot.map Prod.fst, (new_snap.lookup k).isSome = true) :
    (process_master_changes cfg A st new_snap).2 = [] ∧
    (process_master_changes cfg A st new_snap).1.links = st.links := by
  have h1 := process_entries_no_change cfg A st.lastEquity st.snapshot htol
    new_snap st.links hsame
  have h2 : (st.snapshot.map Prod.fst).filter
      (fun k => (new_snap.lookup k).isNone) = [] := by
    have hgen : ∀ ks : List ℕ, (∀ k ∈ ks, (new_snap.lookup k).isSome = true) →
        ks.filter (fun k => (new_snap.lookup k).isNone) = [] := by
      intro ks
      induction ks with
      | nil => intro _; rfl
      | cons k rest ih =>
        intro h
        have hk := h k (List.mem_cons_self k rest)
        have hkn : (new_snap.lookup k).isNone = false := by
          cases hx : new_snap.lookup k with
          | none => rw [hx] at hk; simp at hk
          | some _ => rfl
        simp [List.filter, hkn, ih (fun k' hk' => h k' (List.mem_cons_of_mem k hk'))]
    exact hgen _ hkeys
  simp only [process_master_changes, h1, h2]
  simp [process_closes]

/-- Witness for C5: a one-position snapshot with a live link fed twice. -/
theorem idempotent_rediff_witness :
    (process_master_changes defaultConfig adapterOK
        ⟨[(1, masterPos1)], [(1, link0)], none⟩ [(1, masterPos1)]).2 = [] ∧
    (process_master_changes defaultConfig adapterOK
        ⟨[(1, masterPos1)], [(1, link0)], none⟩ [(1, masterPos1)]).1.links
      = [(1, link0)] :=
  idempotent_rediff defaultConfig adapterOK
    ⟨[(1, masterPos1)], [(1, link0)], none⟩ [(1, masterPos1)]
    (by norm_num [defaultConfig])
    (by
      intro e he
      rw [List.mem_singleton.mp he]
      exact ⟨masterPos1, rfl, rfl, rfl, rfl⟩)
    (by
      intro k hk
      have : k = 1 := by simpa using hk
      rw [this]
      rfl)

/-- Under the source configuration (Fixed 0.10 lots), converting the
EURUSD master amount 1.0 requests 0.10 lots whatever the equities. -/
theorem convert_fixed_eurusd (fe me : Option ℚ) :
    convert_master_amount_to_lots defaultConfig fe me "EURUSD" (some 1)
      (some "EURUSD") = 1/10 := by
  simp [convert_master_amount_to_lots, defaultConfig]

/-- The follower link the round trip creates for ticket `t`. -/
def linkFor (t : ℤ) : FollowerLink :=
  { master_order_number := 1, master_symbol := "EURUSD",
    follower_symbol := "EURUSD", follower_ticket := t,
    follower_volume := 1/10, side := 0 }

/-- C4: absent -> present (amount 1.0, Buy) -> absent over three ticks,
with the open and the close succeeding on the venue: tick 1 does
nothing, tick 2 issues exactly the one open call and creates the link,
tick 3 issues exactly the one close call and deletes it; over the whole
run there is exactly one open call and one close call, and the final
link table holds no entry for the order. -/
theorem open_close_round_trip (A : Adapter) (t : ℤ)
    (hopen : A.openTrade masterPos1 (1/10) none none = some t)
    (hclose : A.closeTrade (linkFor t) = true) :
    process_master_changes defaultConfig A ⟨[], [], none⟩ []
      = (⟨[], [], none⟩, []) ∧
    process_master_changes defaultConfig A ⟨[], [], none⟩ [(1, masterPos1)]
      = (⟨[(1, masterPos1)], [(1, linkFor t)], none⟩, [Event.openCall 1 (1/10)]) ∧
    process_master_changes defaultConfig A
        ⟨[(1, masterPos1)], [(1, linkFor t)], none⟩ []
      = (⟨[], [], none⟩, [Event.closeCall 1]) ∧
    (([] ++ [Event.openCall 1 (1/10)] ++ [Event.closeCall 1]).countP
        Event.isOpen = 1 ∧
      ([] ++ [Event.openCall 1 (1/10)] ++ [Event.closeCall 1]).countP
        Event.isClose = 1 ∧
      (([] : Links).lookup 1) = none) := by
  have hms : map_symbol defaultConfig "EURUSD" = "EURUSD" := rfl
  have hconv := convert_fixed_eurusd A.followerEquity (none : Option ℚ)
  refine ⟨rfl, ?_, ?_, rfl, rfl, rfl⟩
  · simp only [masterPos1] at hopen
    simp only [process_master_changes, process_entries, process_one_entry,
      open_follower_for_master, masterPos1, List.lookup, hms, hconv]
    rw [hopen]
    simp [dictUpsert, process_closes, linkFor, masterPos1]
  · have hc1 : defaultConfig.close_on_master_close = true := rfl
    have hc2 : defaultConfig.dry_run = false := rfl
    simp only [process_master_changes, process_entries, process_closes,
      close_follower_for_master, List.lookup, List.map, List.filter,
      beq_self_eq_true, hc1, hc2, hclose]
    simp [dictDelete]

/-- Witness for C4 on the always-succeeding adapter (ticket 77). -/
theorem open_close_round_trip_witness :
    process_master_changes defaultConfig adapterOK ⟨[], [], none⟩
        [(1, masterPos1)]
      = (⟨[(1, masterPos1)], [(1, linkFor 77)], none⟩,
         [Event.openCall 1 (1/10)]) ∧
    process_master_changes defaultConfig adapterOK
        ⟨[(1, masterPos1)], [(1, linkFor 77)], none⟩ []
      = (⟨[], [], none⟩, [Event.closeCall 1]) :=
  ⟨(open_close_round_trip adapterOK 77 rfl rfl).2.1,
   (open_close_round_trip adapterOK 77 rfl rfl).2.2.1⟩

/-- `open_follower_for_master` always records exactly one open call,
tagged with the master's order number and converted lots. -/
theorem open_follower_events (cfg : Config) (A : Adapter) (me : Option ℚ)
    (links : Links) (mp : MasterPosition) :
    (open_follower_for_master cfg A me links mp).2
      = [Event.openCall mp.order_number
          (convert_master_amount_to_lots cfg A.followerEquity me mp.symbol
            (some mp.amount) (some (map_symbol cfg mp.symbol)))] := by
  simp only [open_follower_for_master]
  cases A.openTrade mp
    (convert_master_amount_to_lots cfg A.followerEquity me mp.symbol
      (some mp.amount) (some (map_symbol cfg mp.symbol)))
    mp.stop_loss mp.take_profit <;> rfl

/-- With no link for the order, the adjust path falls through to a
fresh open. -/
theorem adjust_no_link_opens (cfg : Config) (A : Adapter) (me : Option ℚ)
    (links : Links) (mp : MasterPosition)
    (h : links.lookup mp.order_number = none) :
    adjust_follower_for_master cfg A me links mp
      = open_follower_for_master cfg A me links mp := by
  simp only [adjust_follower_for_master, h]

/-- Every event the adjust path emits concerns the entry's own order
number. -/
theorem adjust_events_orderNo (cfg : Config) (A : Adapter) (me : Option ℚ)
    (links : Links) (mp : MasterPosition) :
    ∀ ev ∈ (adjust_follower_for_master cfg A me links mp).2,
      ev.orderNo = mp.order_number := by
  intro ev hev
  simp only [adjust_follower_for_master] at hev
  cases hlk : links.lookup mp.order_number with
  | none =>
    rw [hlk] at hev
    rw [open_follower_events] at hev
    rw [List.mem_singleton.mp hev]
    rfl
  | some link =>
    rw [hlk] at hev
    by_cases hd : cfg.dry_run
    · simp [hd] at hev
    · simp only [hd] at hev
      split_ifs at hev <;>
        first
          | (rw [List.mem_singleton.mp hev]; rfl)
          | simp at hev

/-- The stop-update path emits either nothing (no link) or exactly one
stop-update call for the entry's own order number. -/
theorem update_stops_events (cfg : Config) (A : Adapter)
    (links : Links) (mp : MasterPosition) :
    (update_follower_stops_for_master cfg A links mp).2 = [] ∨
    (update_follower_stops_for_master cfg A links mp).2
      = [Event.stopUpdateCall mp.order_number] := by
  cases hlk : links.lookup mp.order_number with
  | none =>
    exact Or.inl (by simp [update_follower_stops_for_master, hlk])
  | some link =>
    refine Or.inr ?_
    simp only [update_follower_stops_for_master, hlk]
    split <;> rfl

/-- Every event one new/changed-loop iteration emits concerns the
entry's own master position. -/
theorem one_entry_events_orderNo (cfg : Config) (A : Adapter) (me : Option ℚ)
    (prev : Snap) (links : Links) (e : ℕ × MasterPosition) :
    ∀ ev ∈ (process_one_entry cfg A me prev links e).2,
      ev.orderNo = e.2.order_number := by
  intro ev hev
  simp only [process_one_entry] at hev
  cases hlk : prev.lookup e.1 with
  | none =>
    rw [hlk] at hev
    rw [open_follower_events] at hev
    rw [List.mem_singleton.mp hev]
    rfl
  | some prevMp =>
    rw [hlk] at hev
    rcases List.mem_append.mp hev with h1 | h1
    · by_cases hc : 1/100000000 < |prevMp.amount - e.2.amount|
      · rw [if_pos hc] at h1
        exact adjust_events_orderNo cfg A me links e.2 ev h1
      · rw [if_neg hc] at h1
        simp at h1
    · set r1 := if 1/100000000 < |prevMp.amount - e.2.amount| then
          adjust_follower_for_master cfg A me links e.2
        else (links, []) with hr1
      by_cases hs : (cfg.copy_stops &&
          (stops_changed cfg.stop_change_abs_tolerance prevMp.stop_loss e.2.stop_loss ||
           stops_changed cfg.stop_change_abs_tolerance prevMp.take_profit e.2.take_profit))
          = true
      · rw [if_pos hs] at h1
        rcases update_stops_events cfg A r1.1 e.2 with h2 | h2 <;> rw [h2] at h1
        · simp at h1
        · rw [List.mem_singleton.mp h1]
          rfl
      · rw [if_neg hs] at h1
        simp at h1

/-- Association-list lookup over a cons cell, as a plain conditional. -/
theorem pair_lookup_cons {α : Type} (p : ℕ × α) (l : List (ℕ × α)) (k : ℕ) :
    (p :: l).lookup k = if k = p.1 then some p.2 else l.lookup k := by
  by_cases h : k = p.1
  · simp [List.lookup, h]
  · simp [List.lookup, beq_eq_false_iff_ne.mpr h, h]

/-- In-place key replacement is invisible to lookups of other keys. -/
theorem lookup_map_setKey {α : Type} (k k' : ℕ) (v : α) (h : k' ≠ k)
    (l : List (ℕ × α)) :
    (l.map (fun p => if p.1 = k then (k, v) else p)).lookup k'
      = l.lookup k' := by
  induction l with
  | nil => rfl
  | cons hd tl ih =>
    by_cases hh : hd.1 = k
    · rw [List.map_cons, if_pos hh, pair_lookup_cons, pair_lookup_cons]
      rw [if_neg h, if_neg (fun he => h (he.trans hh))]
      exact ih
    · rw [List.map_cons, if_neg hh, pair_lookup_cons, pair_lookup_cons]
      by_cases hk : k' = hd.1
      · rw [if_pos hk, if_pos hk]
      · rw [if_neg hk, if_neg hk]
        exact ih

/-- Appending a binding for another key is invisible to a lookup. -/
theorem lookup_append_single {α : Type} (l : List (ℕ × α)) (k k' : ℕ) (v : α)
    (h : k' ≠ k) : (l ++ [(k, v)]).lookup k' = l.lookup k' := by
  induction l with
  | nil => simp [pair_lookup_cons, h]
  | cons hd tl ih =>
    rw [List.cons_append, pair_lookup_cons, pair_lookup_cons]
    by_cases hk : k' = hd.1
    · rw [if_pos hk, if_pos hk]
    · rw [if_neg hk, if_neg hk]
      exact ih

/-- Updating one key leaves every other key's lookup unchanged. -/
theorem dictUpsert_lookup_ne {α : Type} (l : List (ℕ × α)) (k k' : ℕ) (v : α)
    (h : k' ≠ k) : (dictUpsert l k v).lookup k' = l.lookup k' := by
  simp only [dictUpsert]
  split_ifs
  · exact lookup_map_setKey k k' v h l
  · exact lookup_append_single l k k' v h

/-- Deleting one key leaves every other key's lookup unchanged. -/
theorem dictDelete_lookup_ne {α : Type} (l : List (ℕ × α)) (k k' : ℕ)
    (h : k' ≠ k) : (dictDelete l k).lookup k' = l.lookup k' := by
  induction l with
  | nil => rfl
  | cons hd tl ih =>
    simp only [dictDelete, List.filter] at ih ⊢
    by_cases hh : hd.1 = k
    · rw [show (decide (hd.1 ≠ k)) = false from by simp [hh]]
      rw [pair_lookup_cons, if_neg (fun he => h (he.trans hh))]
      exact ih
    · rw [show (decide (hd.1 ≠ k)) = true from by simp [hh]]
      rw [pair_lookup_cons, pair_lookup_cons]
      by_cases hk : k' = hd.1
      · rw [if_pos hk, if_pos hk]
      · rw [if_neg hk, if_neg hk]
        exact ih

/-- A fresh open touches no link-table key other than the entry's own
order number. -/
theorem open_follower_frame (cfg : Config) (A : Adapter) (me : Option ℚ)
    (links : Links) (mp : MasterPosition) (k : ℕ)
    (h : k ≠ mp.order_number) :
    ((open_follower_for_master cfg A me links mp).1).lookup k
      = links.lookup k := by
  simp only [open_follower_for_master]
  cases A.openTrade mp
    (convert_master_amount_to_lots cfg A.followerEquity me mp.symbol
      (some mp.amount) (some (map_symbol cfg mp.symbol)))
    mp.stop_loss mp.take_profit with
  | none => rfl
  | some ticket => exact dictUpsert_lookup_ne _ _ _ _ h

/-- The adjust path touches no link-table key other than the entry's
own order number. -/
theorem adjust_frame (cfg : Config) (A : Adapter) (me : Option ℚ)
    (links : Links) (mp : MasterPosition) (k : ℕ)
    (h : k ≠ mp.order_number) :
    ((adjust_follower_for_master cfg A me links mp).1).lookup k
      = links.lookup k := by
  cases hlk : links.lookup mp.order_number with
  | none =>
    rw [adjust_no_link_opens cfg A me links mp hlk]
    exact open_follower_frame cfg A me links mp k h
  | some link =>
    simp only [adjust_follower_for_master, hlk]
    split_ifs
    · exact dictUpsert_lookup_ne _ _ _ _ h
    · exact dictDelete_lookup_ne _ _ _ h
    · exact dictUpsert_lookup_ne _ _ _ _ h

/-- The stop-update path touches no link-table key other than the
entry's own order number. -/
theorem update_stops_frame (cfg : Config) (A : Adapter)
    (links : Links) (mp : MasterPosition) (k : ℕ)
    (h : k ≠ mp.order_number) :
    ((update_follower_stops_for_master cfg A links mp).1).lookup k
      = links.lookup k := by
  cases hlk : links.lookup mp.order_number with
  | none => simp [update_follower_stops_for_master, hlk]
  | some link =>
    simp only [update_follower_stops_for_master, hlk]
    split
    · rfl
    · exact dictUpsert_lookup_ne _ _ _ _ h

/-- One new/changed-loop iteration touches no link-table key other than
the entry's own order number. -/
theorem one_entry_frame (cfg : Config) (A : Adapter) (me : Option ℚ)
    (prev : Snap) (links : Links) (e : ℕ × MasterPosition) (k : ℕ)
    (h : k ≠ e.2.order_number) :
    ((process_one_entry cfg A me prev links e).1).lookup k
      = links.lookup k := by
  simp only [process_one_entry]
  cases hlk : prev.lookup e.1 with
  | none => exact open_follower_frame cfg A me links e.2 k h
  | some prevMp =>
    by_cases hc : 1/100000000 < |prevMp.amount - e.2.amount| <;>
      by_cases hs : (cfg.copy_stops &&
          (stops_changed cfg.stop_change_abs_tolerance prevMp.stop_loss e.2.stop_loss ||
           stops_changed cfg.stop_change_abs_tolerance prevMp.take_profit e.2.take_profit))
          = true
    · simp only [if_pos hc, if_pos hs]
      rw [update_stops_frame cfg A _ e.2 k h]
      exact adjust_frame cfg A me links e.2 k h
    · simp only [if_pos hc, if_neg hs]
      exact adjust_frame cfg A me links e.2 k h
    · simp only [if_neg hc, if_pos hs]
      exact update_stops_frame cfg A _ e.2 k h
    · simp only [if_neg hc, if_neg hs]

/-- The new/changed loop splits over list concatenation. -/
theorem process_entries_append (cfg : Config) (A : Adapter) (me : Option ℚ)
    (prev : Snap) :
    ∀ (l1 l2 : Snap) (links : Links),
      process_entries cfg A me prev (l1 ++ l2) links
        = ((process_entries cfg A me prev l2
              (process_entries cfg A me prev l1 links).1).1,
           (process_entries cfg A me prev l1 links).2 ++
             (process_entries cfg A me prev l2
               (process_entries cfg A me prev l1 links).1).2) := by
  intro l1
  induction l1 with
  | nil => intro l2 links; simp [process_entries]
  | cons e rest ih =>
    intro l2 links
    simp only [List.cons_append, process_entries, List.append_eq]
    rw [ih]
    simp [List.append_assoc]

/-- The new/changed loop leaves untouched every link-table key that is
not the order number of one of its entries. -/
theorem process_entries_frame (cfg : Config) (A : Adapter) (me : Option ℚ)
    (prev : Snap) :
    ∀ (l : Snap) (links : Links) (k : ℕ),
      (∀ e ∈ l, e.2.order_number ≠ k) →
      ((process_entries cfg A me prev l links).1).lookup k
        = links.lookup k := by
  intro l
  induction l with
  | nil => intro links k _; rfl
  | cons e rest ih =>
    intro links k hall
    simp only [process_entries]
    rw [ih _ k (fun e' he' => hall e' (List.mem_cons_of_mem e he'))]
    exact one_entry_frame cfg A me prev links e k
      (Ne.symm (hall e (List.mem_cons_self e rest)))

/-- Every event of the new/changed loop originates in one of its
entries' own iteration (run from some intermediate link table). -/
theorem process_entries_events_from (cfg : Config) (A : Adapter)
    (me : Option ℚ) (prev : Snap) :
    ∀ (l : Snap) (links : Links),
      ∀ ev ∈ (process_entries cfg A me prev l links).2,
        ∃ e ∈ l, ∃ links',
          ev ∈ (process_one_entry cfg A me prev links' e).2 := by
  intro l
  induction l with
  | nil => intro links ev hev; simp [process_entries] at hev
  | cons e rest ih =>
    intro links ev hev
    simp only [process_entries] at hev
    rcases List.mem_append.mp hev with h1 | h1
    · exact ⟨e, List.mem_cons_self e rest, links, h1⟩
    · obtain ⟨e', he', links', hm⟩ := ih _ ev h1
      exact ⟨e', List.mem_cons_of_mem e he', links', hm⟩

/-- An entry present in the previous snapshot whose amount moved by at
most the 1e-8 tolerance never reaches the open path: its iteration
emits no open call, from any link table. -/
theorem one_entry_no_amount_change_no_open (cfg : Config) (A : Adapter)
    (me : Option ℚ) (prev : Snap) (links : Links) (e : ℕ × MasterPosition)
    (prevMp : MasterPosition) (hlk : prev.lookup e.1 = some prevMp)
    (hle : |prevMp.amount - e.2.amount| ≤ 1/100000000) :
    ∀ (o : ℕ) (lots : ℚ),
      Event.openCall o lots ∉ (process_one_entry cfg A me prev links e).2 := by
  intro o lots hmem
  simp only [process_one_entry, hlk, if_neg (not_lt.mpr hle)] at hmem
  rcases update_stops_events cfg A links e.2 with h2 | h2
  · by_cases hs : (cfg.copy_stops &&
        (stops_changed cfg.stop_change_abs_tolerance prevMp.stop_loss e.2.stop_loss ||
         stops_changed cfg.stop_change_abs_tolerance prevMp.take_profit e.2.take_profit))
        = true
    · rw [if_pos hs] at hmem
      rw [h2] at hmem
      simp at hmem
    · rw [if_neg hs] at hmem
      simp at hmem
  · by_cases hs : (cfg.copy_stops &&
        (stops_changed cfg.stop_change_abs_tolerance prevMp.stop_loss e.2.stop_loss ||
         stops_changed cfg.stop_change_abs_tolerance prevMp.take_profit e.2.take_profit))
        = true
    · rw [if_pos hs] at hmem
      rw [h2] at hmem
      simp at hmem
    · rw [if_neg hs] at hmem
      simp at hmem

/-- The close path only ever records close calls for its own order. -/
theorem close_follower_events (cfg : Config) (A : Adapter) (links : Links)
    (k : ℕ) : ∀ ev ∈ (close_follower_for_master cfg A links k).2,
      ev = Event.closeCall k := by
  intro ev hev
  by_cases hc : cfg.close_on_master_close = true
  · cases hlk : links.lookup k with
    | none => simp [close_follower_for_master, hc, hlk] at hev
    | some link =>
      simp only [close_follower_for_master, hc, hlk, not_true,
        if_false, Bool.false_eq_true] at hev
      split_ifs at hev
      · simp at hev
      · simp only [List.mem_singleton] at hev
        exact hev
      · simp only [List.mem_singleton] at hev
        exact hev
  · simp [close_follower_for_master, hc] at hev

/-- Every event of the closed loop is a close call for some vanished
key. -/
theorem process_closes_events (cfg : Config) (A : Adapter) :
    ∀ (ks : List ℕ) (links : Links),
      ∀ ev ∈ (process_closes cfg A ks links).2,
        ∃ k ∈ ks, ev = Event.closeCall k := by
  intro ks
  induction ks with
  | nil => intro links ev hev; simp [process_closes] at hev
  | cons k rest ih =>
    intro links ev hev
    simp only [process_closes] at hev
    rcases List.mem_append.mp hev with h1 | h1
    · exact ⟨k, List.mem_cons_self k rest,
        close_follower_events cfg A links k ev h1⟩
    · obtain ⟨k', hk', hev'⟩ := ih _ ev h1
      exact ⟨k', List.mem_cons_of_mem k hk', hev'⟩

/-- With distinct keys, two bindings of the same key are equal. -/
theorem nodup_keys_unique {α : Type} {l : List (ℕ × α)}
    (hnd : (l.map Prod.fst).Nodup) {k : ℕ} {a b : α}
    (ha : (k, a) ∈ l) (hb : (k, b) ∈ l) : a = b := by
  have h1 := lookup_eq_of_nodup_mem hnd ha
  have h2 := lookup_eq_of_nodup_mem hnd hb
  rw [h1] at h2
  exact Option.some.inj h2

/-- C1 (amended): an order number present in both snapshots with no
FollowerLink reaches the fresh-open path (via the adjust fallback) if
and only if its amount moved by more than the 1e-8 tolerance.  When the
amount is unchanged — even if its stops changed — no open call is made
for it: the stop-sync path only warns when no link exists. -/
theorem failed_open_retry_only_on_amount_change
    (cfg : Config) (A : Adapter) (st : EngState) (new_snap : Snap) (o : ℕ)
    (mpPrev mp : MasterPosition)
    (hnd : (new_snap.map Prod.fst).Nodup)
    (hwf : ∀ e ∈ new_snap, e.2.order_number = e.1)
    (hprev : st.snapshot.lookup o = some mpPrev)
    (hmem : (o, mp) ∈ new_snap)
    (hnolink : st.links.lookup o = none) :
    (1/100000000 < |mpPrev.amount - mp.amount| →
      ∃ lots, Event.openCall o lots
        ∈ (process_master_changes cfg A st new_snap).2) ∧
    (|mpPrev.amount - mp.amount| ≤ 1/100000000 →
      ∀ lots, Event.openCall o lots
        ∉ (process_master_changes cfg A st new_snap).2) := by
  constructor
  · intro hamt
    obtain ⟨l1, l2, hsplit⟩ := List.append_of_mem hmem
    subst hsplit
    have hord : mp.order_number = o := hwf (o, mp) hmem
    have hkeys1 : ∀ e ∈ l1, e.2.order_number ≠ o := by
      intro e he heq
      have hnd2 := hnd
      rw [List.map_append] at hnd2
      rcases List.nodup_append.mp hnd2 with ⟨_, _, hdisj⟩
      have he1 : e.1 = o := by
        rw [← hwf e (List.mem_append_left _ he)]
        exact heq
      have ho1 : o ∈ l1.map Prod.fst := List.mem_map.mpr ⟨e, he, he1⟩
      have ho2 : o ∈ List.map Prod.fst ((o, mp) :: l2) := by simp
      exact hdisj ho1 ho2
    have hlink1 : ((process_entries cfg A st.lastEquity st.snapshot l1
        st.links).1).lookup o = none := by
      rw [process_entries_frame cfg A st.lastEquity st.snapshot l1 st.links o hkeys1]
      exact hnolink
    refine ⟨convert_master_amount_to_lots cfg A.followerEquity st.lastEquity
      mp.symbol (some mp.amount) (some (map_symbol cfg mp.symbol)), ?_⟩
    have hopen : Event.openCall o
        (convert_master_amount_to_lots cfg A.followerEquity st.lastEquity
          mp.symbol (some mp.amount) (some (map_symbol cfg mp.symbol)))
        ∈ (process_one_entry cfg A st.lastEquity st.snapshot
            (process_entries cfg A st.lastEquity st.snapshot l1 st.links).1
            (o, mp)).2 := by
      simp only [process_one_entry, hprev]
      rw [if_pos hamt]
      apply List.mem_append.mpr
      left
      rw [adjust_no_link_opens cfg A st.lastEquity _ mp (by rw [hord]; exact hlink1)]
      rw [open_follower_events]
      simp [hord]
    simp only [process_master_changes]
    apply List.mem_append.mpr
    left
    rw [process_entries_append]
    apply List.mem_append.mpr
    right
    simp only [process_entries]
    apply List.mem_append.mpr
    left
    exact hopen
  · intro hle lots hmem2
    simp only [process_master_changes] at hmem2
    rcases List.mem_append.mp hmem2 with h1 | h1
    · obtain ⟨e, he, links', hev⟩ :=
        process_entries_events_from cfg A st.lastEquity st.snapshot
          new_snap st.links _ h1
      by_cases heq : e.1 = o
      · have he2 : e = (o, mp) := by
          have hmem' : (e.1, e.2) ∈ new_snap := he
          rw [heq] at hmem'
          have := nodup_keys_unique hnd hmem' hmem
          calc e = (e.1, e.2) := rfl
            _ = (o, mp) := by rw [heq, this]
        rw [he2] at hev
        exact one_entry_no_amount_change_no_open cfg A st.lastEquity
          st.snapshot links' (o, mp) mpPrev hprev hle o lots hev
      · have horder := one_entry_events_orderNo cfg A st.lastEquity
          st.snapshot links' e _ hev
        rw [hwf e he] at horder
        simp only [Event.orderNo] at horder
        exact heq horder.symm
    · obtain ⟨k, _, hev⟩ := process_closes_events cfg A _ _ _ h1
      simp at hev

/-- `masterPos1` with a stop-loss attached (amount unchanged). -/
def masterPos1s : MasterPosition := { masterPos1 with stop_loss := some (11/10) }

/-- An order present in consecutive snapshots with no link, whose
amount is unchanged (only its stop changed), produces no venue events
at all — in particular the fresh-open path is NOT invoked, refuting
"regardless of whether its amount or stops changed". -/
theorem rediff_unchanged_no_reopen_cex :
    ([(1, masterPos1)] : Snap).lookup 1 = some masterPos1 ∧
    ([(1, masterPos1s)] : Snap).lookup 1 = some masterPos1s ∧
    masterPos1.amount = masterPos1s.amount ∧
    (([] : Links).lookup 1) = none ∧
    (process_master_changes defaultConfig adapterOK
        ⟨[(1, masterPos1)], [], none⟩ [(1, masterPos1s)]).2 = [] := by
  refine ⟨rfl, rfl, rfl, rfl, ?_⟩
  have hcond : ¬ ((1 : ℚ)/100000000 < |masterPos1.amount - masterPos1s.amount|) := by
    norm_num [masterPos1, masterPos1s]
  simp only [process_master_changes, process_entries, process_one_entry,
    pair_lookup_cons, eq_self_iff_true, if_true]
  rw [if_neg hcond]
  simp [update_follower_stops_for_master, process_closes, masterPos1s,
    masterPos1, stops_changed, defaultConfig, List.lookup]

/-- Witness for C1's amended theorem: the same no-link order with its
amount changed from 1.0 to 2.0 does reach the open path. -/
theorem failed_open_retry_only_on_amount_change_witness :
    ∃ lots, Event.openCall 1 lots
      ∈ (process_master_changes defaultConfig adapterOK
          ⟨[(1, masterPos1)], [], none⟩ [(1, masterPos1b)]).2 :=
  (failed_open_retry_only_on_amount_change defaultConfig adapterOK
      ⟨[(1, masterPos1)], [], none⟩ [(1, masterPos1b)] 1 masterPos1 masterPos1b
      (by simp)
      (by intro e he; rw [List.mem_singleton.mp he]; rfl)
      rfl
      (List.mem_singleton.mpr rfl)
      rfl).1
    (by norm_num [masterPos1, masterPos1b])
